import Mathlib

/-!
Shallow embedding of the ccmanager-zellij session orchestration engine.

JavaScript strings are modelled as lists of characters (`Str`), byte buffers
by their byte length, and the effectful service layer as pure functions from
an explicit environment to a result paired with the log of external commands
or events it would issue.
-/

abbrev Str : Type := List Char

/-- JavaScript `String.prototype.includes` on character lists. -/
def containsSub (sub : Str) : Str → Bool
  | [] => sub.isEmpty
  | c :: rest => sub.isPrefixOf (c :: rest) || containsSub sub rest

/-- JavaScript `String.prototype.trim` on character lists. -/
def trimChars (l : Str) : Str :=
  ((l.dropWhile Char.isWhitespace).reverse.dropWhile Char.isWhitespace).reverse

/-- JavaScript `String.prototype.toLowerCase` (ASCII range) on character lists. -/
def toLowerStr (l : Str) : Str := l.map Char.toLower

/-- JavaScript `String.prototype.split` with a one-character separator. -/
def splitOnChar (sep : Char) : Str → List Str
  | [] => [[]]
  | c :: rest =>
    let r := splitOnChar sep rest
    if c = sep then [] :: r
    else
      match r with
      | [] => [[c]]
      | h :: t => (c :: h) :: t

/-- JavaScript `Array.prototype.join(' ')` on character lists. -/
def joinSpace (parts : List Str) : Str := List.intercalate " ".toList parts

inductive SessionState where
  | idle
  | busy
  | waiting_input
deriving DecidableEq

inductive CommandType where
  | claude
  | codex
deriving DecidableEq

/-- The string name of an agent command (`command` variable in the source:
`commandType === 'codex' ? 'codex' : 'claude'`). -/
def commandOf : CommandType → Str
  | CommandType.claude => "claude".toList
  | CommandType.codex => "codex".toList

/-! ## Terminal State Classifier (SessionManager.detectTerminalState) -/

/-- The pattern checks of `detectTerminalState` on the joined window text;
`toLowerStr content` is the `lowerContent` lower-cased copy. -/
def classifyContent (content : Str) : SessionState :=
  if containsSub "│ Do you want".toList content ||
      containsSub "│ Would you like".toList content then
    SessionState.waiting_input
  else if containsSub "esc to interrupt".toList (toLowerStr content) then
    SessionState.busy
  else
    SessionState.idle

/-- The window-collection loop of `detectTerminalState`: walk the terminal
buffer from the bottom, skip empty lines at the bottom, prepend collected
lines, stop at 30 collected lines.  The first argument is the buffer already
reversed (bottom line first); the second is the accumulator `lines`. -/
def collectGo : List Str → List Str → List Str
  | [], acc => acc
  | l :: rest, acc =>
    if acc.length < 30 then
      if 0 < acc.length ∨ trimChars l ≠ [] then collectGo rest (l :: acc)
      else collectGo rest acc
    else acc

/-- The collected window of `detectTerminalState` for a buffer given
top line first. -/
def collectLines (buffer : List Str) : List Str := collectGo buffer.reverse []

/-- `SessionManager.detectTerminalState`, as a function of the terminal
buffer lines (top line first). -/
def detectTerminalState (buffer : List Str) : SessionState :=
  classifyContent (List.intercalate "\n".toList (collectLines buffer))

/-! ## Output History Buffer (setupBackgroundHandler onData path)

A chunk is represented abstractly through its byte size `sz`; the eviction
logic of the source only reads `buf.length`. -/

def MAX_HISTORY_SIZE : Nat := 10 * 1024 * 1024

/-- `outputHistory.reduce((sum, buf) => sum + buf.length, 0)`. -/
def totalHistorySize (sz : α → Nat) (hist : List α) : Nat :=
  hist.foldl (fun sum buf => sum + sz buf) 0

/-- The eviction loop:
`while (totalSize > MAX_HISTORY_SIZE && outputHistory.length > 0) shift`. -/
def evictOldest (sz : α → Nat) : Nat → List α → List α
  | _, [] => []
  | total, oldest :: rest =>
    if total > MAX_HISTORY_SIZE then evictOldest sz (total - sz oldest) rest
    else oldest :: rest

/-- One `onData` append: push the chunk, then run the eviction loop on the
recomputed total. -/
def pushOutputChunk (sz : α → Nat) (hist : List α) (chunk : α) : List α :=
  let hist1 := hist ++ [chunk]
  evictOldest sz (totalHistorySize sz hist1) hist1

/-- The history after a whole sequence of `onData` appends, starting empty. -/
def appendAll (sz : α → Nat) (chunks : List α) : List α :=
  chunks.foldl (pushOutputChunk sz) []

/-! ## Session Store & Lifecycle Manager (SessionManager) -/

structure Session where
  id : Str
  worktreePath : Str
  /-- `process !== null` (null for Zellij sessions). -/
  hasProcess : Bool
  state : SessionState
  output : List Str
  /-- Output history chunks, each represented by its byte length. -/
  outputHistory : List Nat
  lastActivity : Nat
  isActive : Bool
  /-- `terminal !== null` (null for Zellij sessions). -/
  hasTerminal : Bool
  commandType : CommandType
  isZellijSession : Bool
deriving DecidableEq

inductive MEvent where
  | sessionCreated (id : Str)
  | sessionDestroyed (id : Str)
  | sessionStateChanged (id : Str)
  | sessionExit (id : Str)
  | sessionRestore (id : Str)
deriving DecidableEq

/-- The mutable state of a `SessionManager`, together with observation logs
for spawned processes, killed processes and emitted events. -/
structure MState where
  sessions : List (Str × Session)
  nextId : Nat
  spawned : List (Str × CommandType)
  busyTimers : List Str
  waitingWithBottomBorder : List Str
  events : List MEvent
  killed : List Str
deriving DecidableEq

/-- `Map.prototype.get`. -/
def mapGet (m : List (Str × Session)) (k : Str) : Option Session :=
  match m.find? (fun e => e.1 == k) with
  | some e => some e.2
  | none => none

/-- `Map.prototype.set`. -/
def mapSet (m : List (Str × Session)) (k : Str) (v : Session) : List (Str × Session) :=
  if m.any (fun e => e.1 == k) then
    m.map (fun e => if e.1 == k then (k, v) else e)
  else
    m ++ [(k, v)]

/-- `Map.prototype.delete`. -/
def mapDelete (m : List (Str × Session)) (k : Str) : List (Str × Session) :=
  m.filter (fun e => !(e.1 == k))

/-- `SessionManager.createSession`.  The fresh id is drawn from a counter in
place of `Date.now()` plus a random suffix; `now` stands for `new Date()`. -/
def createSession (st : MState) (worktreePath : Str) (commandType : CommandType)
    (isZellijSession : Bool) (now : Nat) : Session × MState :=
  match mapGet st.sessions worktreePath with
  | some existing => (existing, st)
  | none =>
    let id := "session-".toList ++ (toString st.nextId).toList
    let session : Session :=
      { id := id
        worktreePath := worktreePath
        hasProcess := !isZellijSession
        state := if isZellijSession then SessionState.idle else SessionState.busy
        output := []
        outputHistory := []
        lastActivity := now
        isActive := false
        hasTerminal := !isZellijSession
        commandType := commandType
        isZellijSession := isZellijSession }
    let st1 : MState :=
      { st with
        sessions := mapSet st.sessions worktreePath session
        nextId := st.nextId + 1
        spawned :=
          if isZellijSession then st.spawned
          else st.spawned ++ [(worktreePath, commandType)]
        events := st.events ++ [MEvent.sessionCreated id] }
    (session, st1)

/-- `SessionManager.destroySession`. -/
def destroySession (st : MState) (worktreePath : Str) : MState :=
  match mapGet st.sessions worktreePath with
  | none => st
  | some session =>
    { st with
      killed := if session.hasProcess then st.killed ++ [session.id] else st.killed
      busyTimers := st.busyTimers.filter (fun k => !(k == worktreePath))
      sessions := mapDelete st.sessions worktreePath
      waitingWithBottomBorder :=
        st.waitingWithBottomBorder.filter (fun i => !(i == session.id))
      events := st.events ++ [MEvent.sessionDestroyed session.id] }

/-- State computed per session by the Zellij monitoring loop in
`startZellijStatusMonitoring`: `isActive ? 'busy' : (processExists ? 'idle' : 'idle')`. -/
def zellijNewState (isActive processExists : Bool) : SessionState :=
  if isActive then SessionState.busy
  else if processExists then SessionState.idle
  else SessionState.idle

/-- One iteration of the Zellij status-monitoring loop for one tracked
session; `isActive` and `processExists` are the results of the external
probes `ZellijService.isPaneActive` and `ZellijService.isProcessRunning`. -/
def zellijTick (st : MState) (worktreePath : Str) (isActive processExists : Bool)
    (now : Nat) : MState :=
  match mapGet st.sessions worktreePath with
  | none => st
  | some s =>
    if s.isZellijSession then
      let newState := zellijNewState isActive processExists
      if s.state ≠ newState then
        { st with
          sessions := mapSet st.sessions worktreePath
            { s with state := newState, lastActivity := now }
          events := st.events ++ [MEvent.sessionStateChanged s.id] }
      else st
    else st

/-! ## Pane Directory Adapter (ZellijService) -/

/-- One character of `replace(/[^a-zA-Z0-9-_]/g, '-')`. -/
def sanitizeChar (c : Char) : Char :=
  if c.isAlphanum || c = '-' || c = '_' then c else '-'

/-- `branchName.replace(/[^a-zA-Z0-9-_]/g, '-')`. -/
def sanitizeName (s : Str) : Str := s.map sanitizeChar

/-- `ZellijService.getBranchNameFromPath`. -/
def getBranchNameFromPath (worktreePath : Str) : Str :=
  let parts := splitOnChar '/' worktreePath
  let lastPart := (parts.getLast?).getD []
  sanitizeName (if lastPart = [] then "unknown".toList else lastPart)

/-- First match of a regex of shape `lit([^"]+)"` against a string: scan for
the first position where the literal `pat` is a prefix and is followed by at
least one non-quote character and then a closing quote; return the capture. -/
def firstCaptureAux (pat : Str) : Str → Option Str
  | [] => none
  | c :: rest =>
    if pat.isPrefixOf (c :: rest) then
      let after := (c :: rest).drop pat.length
      let cap := after.takeWhile (fun ch => ch ≠ '"')
      if cap ≠ [] ∧ after.drop cap.length ≠ [] then some cap
      else firstCaptureAux pat rest
    else firstCaptureAux pat rest

/-- `line.match(/pat"([^"]+)"/)` returning the first capture group, where
`pat` here already carries the opening quote of the pattern. -/
def matchCapture (pat s : Str) : Option Str := firstCaptureAux pat s

structure PaneInfo where
  name : Str
  id : Str
  cwd : Str
  command : Str
  commandType : Option CommandType
  focusIndex : Int
deriving DecidableEq

/-- Command-type derivation in `getExistingPanes`. -/
def paneCommandType (command : Str) : Option CommandType :=
  if command = "claude".toList then some CommandType.claude
  else if command = "codex".toList then some CommandType.codex
  else none

/-- Processing of one (trimmed, non-empty) layout line in `getExistingPanes`:
update the tracked `currentCwd` from `cwd "..."` lines, and on a
`pane command=` line whose regex matches, produce the command together with
its resolved working directory.  `resolveFn` stands for node's
`resolve(currentCwd, cwd)`. -/
def lineStep (resolveFn : Str → Str → Str) (currentCwd line : Str) :
    Str × Option (Str × Str) :=
  let currentCwd1 :=
    if "cwd ".toList.isPrefixOf line then
      match matchCapture "cwd \"".toList line with
      | some c => c
      | none => currentCwd
    else currentCwd
  if "pane command=".toList.isPrefixOf line then
    match matchCapture "pane command=\"".toList line with
    | some command =>
      let cwd0 := (matchCapture "cwd=\"".toList line).getD currentCwd1
      let cwd :=
        if cwd0 ≠ [] ∧ ¬ "/".toList.isPrefixOf cwd0 then resolveFn currentCwd1 cwd0
        else cwd0
      (currentCwd1, some (command, cwd))
    | none => (currentCwd1, none)
  else (currentCwd1, none)

/-- The scanning loop of `ZellijService.getExistingPanes`: `currentCwd` and
`focusIndex` are the tracked context, `acc` the `panes` array. -/
def parsePanesGo (resolveFn : Str → Str → Str) :
    List Str → Str → Int → List PaneInfo → List PaneInfo
  | [], _, _, acc => acc
  | l :: rest, currentCwd, focusIndex, acc =>
    let line := trimChars l
    if line = [] then parsePanesGo resolveFn rest currentCwd focusIndex acc
    else
      match lineStep resolveFn currentCwd line with
      | (cwd1, none) => parsePanesGo resolveFn rest cwd1 focusIndex acc
      | (cwd1, some (command, cwd)) =>
        let acc1 :=
          match paneCommandType command with
          | some ct =>
            if cwd ≠ [] then
              acc ++ [{ name := getBranchNameFromPath cwd
                        id := "pane-".toList ++ (toString (acc.length + 1)).toList
                        cwd := cwd
                        command := command
                        commandType := some ct
                        focusIndex := focusIndex }]
            else acc
          | none => acc
        parsePanesGo resolveFn rest cwd1 (focusIndex + 1) acc1

/-- `ZellijService.getExistingPanes` as a function of the `dump-layout`
output. -/
def getExistingPanes (resolveFn : Str → Str → Str) (stdout : Str) : List PaneInfo :=
  parsePanesGo resolveFn (splitOnChar '\n' stdout) [] 0 []

/-- Spec-side description of the layout scan: the sequence of ALL
command-bearing pane entries, one per pane line whose `command="..."` match
succeeds, with the working directory resolved exactly as the parser does. -/
def commandPaneScan (resolveFn : Str → Str → Str) : List Str → Str → List (Str × Str)
  | [], _ => []
  | l :: rest, currentCwd =>
    let line := trimChars l
    if line = [] then commandPaneScan resolveFn rest currentCwd
    else
      match lineStep resolveFn currentCwd line with
      | (cwd1, none) => commandPaneScan resolveFn rest cwd1
      | (cwd1, some entry) => entry :: commandPaneScan resolveFn rest cwd1

/-- Spec-side description of the returned pane list: keep only claude/codex
entries with a non-empty directory, and attach to each its ordinal position
`k, k+1, ...` in the FULL command-bearing sequence. -/
def agentPanesSpec (k : Int) : List (Str × Str) → List (Str × Str × Int)
  | [] => []
  | (command, cwd) :: rest =>
    let tail := agentPanesSpec (k + 1) rest
    match paneCommandType command with
    | some _ => if cwd ≠ [] then (command, cwd, k) :: tail else tail
    | none => tail

/-- The fields of a parsed pane that the layout dump determines directly. -/
def paneProj (p : PaneInfo) : Str × Str × Int := (p.command, p.cwd, p.focusIndex)

inductive NavAction where
  | focusNext
  | focusPrev
deriving DecidableEq

structure OpResult where
  success : Bool
  error : Option Str
deriving DecidableEq

/-- `ZellijService.focusPane`, as a function of the already-probed pane list
(`getExistingPanes`) and focused-pane info (`getCurrentFocusedPane`), paired
with the list of navigation actions it issues.  `resolveFn1` stands for
node's one-argument `resolve`. -/
def focusPane (insideZellij : Bool) (resolveFn1 : Str → Str) (panes : List PaneInfo)
    (currentFocus : Option (Str × Int)) (targetCwd : Str) :
    OpResult × List NavAction :=
  if !insideZellij then
    ({ success := false, error := some "Not inside Zellij session".toList }, [])
  else
    match currentFocus with
    | none =>
      ({ success := false,
         error := some "Could not determine current focused pane".toList }, [])
    | some currentFocusInfo =>
      match panes.find? (fun pane => resolveFn1 pane.cwd == resolveFn1 targetCwd) with
      | none => ({ success := false, error := some "Target pane not found".toList }, [])
      | some targetPane =>
        let stepsToMove : Int := targetPane.focusIndex - currentFocusInfo.2
        if stepsToMove > 0 then
          ({ success := true, error := none },
            List.replicate stepsToMove.toNat NavAction.focusNext)
        else if stepsToMove < 0 then
          ({ success := true, error := none },
            List.replicate stepsToMove.natAbs NavAction.focusPrev)
        else
          ({ success := true, error := none }, [])

/-- Environment for the ZellijService pane-creation entry points:
`which zellij` success, the `ZELLIJ` variable, `which <command>` success per
command name, and the `CCMANAGER_*_ARGS` splits. -/
structure ZEnv where
  zellijInPath : Bool
  insideZellij : Bool
  inPath : Str → Bool
  claudeArgs : List Str
  codexArgs : List Str

def argsOf (env : ZEnv) : CommandType → List Str
  | CommandType.claude => env.claudeArgs
  | CommandType.codex => env.codexArgs

def quoteArg (s : Str) : Str := "\"".toList ++ s ++ "\"".toList

/-- `ZellijService.createWorktreePane` (the one-shot strategy), paired with
the list of zellij CLI command lines it executes. -/
def createWorktreePane (env : ZEnv) (worktreePath branchName : Str)
    (commandType : CommandType) : OpResult × List Str :=
  if !env.zellijInPath then
    ({ success := false,
       error := some "Zellij is not available. Please install Zellij first.".toList }, [])
  else if !env.insideZellij then
    ({ success := false,
       error :=
         some "Not running inside Zellij session. Please start CCManager within Zellij.".toList },
      [])
  else
    let paneName := sanitizeName branchName
    let command := commandOf commandType
    let args := argsOf env commandType
    let fullCommand := joinSpace (command :: args)
    let banner :=
      "\"echo \x27Starting ".toList ++ commandOf commandType ++
        " in worktree: ".toList ++ branchName ++ "\x27; echo \x27Path: ".toList ++
        worktreePath ++ "\x27; echo; ".toList ++ fullCommand ++ "\"".toList
    let zellijCommand :=
      joinSpace ["zellij".toList, "action".toList, "new-pane".toList,
        "--name".toList, quoteArg paneName, "--cwd".toList, quoteArg worktreePath,
        "--".toList, "bash".toList, "-c".toList, banner]
    ({ success := true, error := none }, [zellijCommand])

/-- `ZellijService.createWorktreeTab` (the scripted strategy), paired with
the list of zellij CLI command lines it executes. -/
def createWorktreeTab (env : ZEnv) (resolveFn1 : Str → Str)
    (worktreePath branchName : Str) (commandType : CommandType) :
    OpResult × List Str :=
  if !env.zellijInPath then
    ({ success := false,
       error := some "Zellij is not available. Please install Zellij first.".toList }, [])
  else if !env.insideZellij then
    ({ success := false,
       error :=
         some "Not running inside Zellij session. Please start CCManager within Zellij.".toList },
      [])
  else
    let tabName := sanitizeName branchName
    let absoluteWorktreePath := resolveFn1 worktreePath
    let command := commandOf commandType
    let args := argsOf env commandType
    let fullCommand := joinSpace (command :: args)
    if !(env.inPath command) then
      ({ success := false,
         error := some ("Command \x27".toList ++ command ++
           "\x27 not found in PATH".toList) }, [])
    else
      let createPaneCommand :=
        joinSpace ["zellij".toList, "action".toList, "new-pane".toList,
          "--name".toList, tabName, "--cwd".toList, absoluteWorktreePath]
      let commands := ["cd \"".toList ++ absoluteWorktreePath ++ "\"".toList, fullCommand]
      let issued := createPaneCommand ::
        commands.flatMap (fun c =>
          ["zellij action write-chars \"".toList ++ c ++ "\"".toList,
            "zellij action write 13".toList])
      ({ success := true, error := none }, issued)

/-! ## Spec-side predicates for the classifier claims -/

/-- The joined text of the collected classifier window. -/
def windowContent (buffer : List Str) : Str :=
  List.intercalate "\n".toList (collectLines buffer)

/-- Spec wording: the text contains a boxed-prompt marker, a vertical bar
followed by "Do you want" or "Would you like". -/
def boxedPromptMarker (text : Str) : Bool :=
  containsSub "│ Do you want".toList text || containsSub "│ Would you like".toList text

/-- Spec wording: the lower-cased text contains "esc to interrupt". -/
def escInterruptBanner (text : Str) : Bool :=
  containsSub "esc to interrupt".toList (toLowerStr text)

/-- Spec invariant: every tracked Zellij-managed session is Idle or Busy. -/
def ZellijOK (st : MState) : Prop :=
  ∀ e ∈ st.sessions, e.2.isZellijSession = true →
    e.2.state = SessionState.idle ∨ e.2.state = SessionState.busy

/-- An empty session manager state. -/
def emptyMState : MState :=
  { sessions := []
    nextId := 0
    spawned := []
    busyTimers := []
    waitingWithBottomBorder := []
    events := []
    killed := [] }

/-- Concrete environment: zellij present, inside a session, but no agent
command in PATH. -/
def envNoAgent : ZEnv :=
  { zellijInPath := true
    insideZellij := true
    inPath := fun _ => false
    claudeArgs := []
    codexArgs := [] }

/-- A classifier window showing both a boxed prompt and a busy banner. -/
def demoPromptBuffer : List Str :=
  ["│ Do you want to proceed?".toList, "Press esc to interrupt".toList]

/-- A pane directory with one claude pane at focus index 5. -/
def demoPane : PaneInfo :=
  { name := "w".toList
    id := "pane-1".toList
    cwd := "/w".toList
    command := "claude".toList
    commandType := some CommandType.claude
    focusIndex := 5 }

def demoPanes : List PaneInfo := [demoPane]

/-! ## Lemmas on the output history buffer -/

theorem totalHistorySize_foldl (sz : α → Nat) (l : List α) (a : Nat) :
    l.foldl (fun sum buf => sum + sz buf) a = a + (l.map sz).sum := by
  induction l generalizing a with
  | nil => simp
  | cons h t ih =>
    simp only [List.foldl_cons, ih, List.map_cons, List.sum_cons]
    omega

theorem totalHistorySize_eq_sum (sz : α → Nat) (l : List α) :
    totalHistorySize sz l = (l.map sz).sum := by
  unfold totalHistorySize
  rw [totalHistorySize_foldl]
  omega

theorem evictOldest_suffix (sz : α → Nat) (l : List α) :
    ∀ t, evictOldest sz t l <:+ l := by
  induction l with
  | nil => intro t; simp [evictOldest]
  | cons h rest ih =>
    intro t
    simp only [evictOldest]
    split
    · exact (ih _).trans (List.suffix_cons h rest)
    · exact List.suffix_refl _

theorem evictOldest_sum_le (sz : α → Nat) (l : List α) :
    ∀ t, t = (l.map sz).sum →
      ((evictOldest sz t l).map sz).sum ≤ MAX_HISTORY_SIZE := by
  induction l with
  | nil =>
    intro t _
    simp [evictOldest]
  | cons h rest ih =>
    intro t ht
    simp only [List.map_cons, List.sum_cons] at ht
    simp only [evictOldest]
    split
    · exact ih _ (by omega)
    · simp only [List.map_cons, List.sum_cons]
      omega

theorem pushOutputChunk_sum_le (sz : α → Nat) (hist : List α) (c : α) :
    totalHistorySize sz (pushOutputChunk sz hist c) ≤ MAX_HISTORY_SIZE := by
  rw [totalHistorySize_eq_sum]
  show ((evictOldest sz (totalHistorySize sz (hist ++ [c])) (hist ++ [c])).map sz).sum ≤
    MAX_HISTORY_SIZE
  exact evictOldest_sum_le sz (hist ++ [c]) _ (totalHistorySize_eq_sum sz (hist ++ [c]))

theorem pushOutputChunk_suffix (sz : α → Nat) (hist : List α) (c : α) :
    pushOutputChunk sz hist c <:+ hist ++ [c] :=
  evictOldest_suffix sz (hist ++ [c]) _

theorem foldl_push_suffix (sz : α → Nat) :
    ∀ (cs hist pre : List α), hist <:+ pre →
      cs.foldl (pushOutputChunk sz) hist <:+ pre ++ cs := by
  intro cs
  induction cs with
  | nil => intro hist pre h; simpa using h
  | cons c rest ih =>
    intro hist pre h
    simp only [List.foldl_cons]
    have h1 : hist ++ [c] <:+ pre ++ [c] := by
      obtain ⟨u, hu⟩ := h
      exact ⟨u, by rw [← hu, List.append_assoc]⟩
    have h2 : pushOutputChunk sz hist c <:+ pre ++ [c] :=
      (pushOutputChunk_suffix sz hist c).trans h1
    have h3 := ih (pushOutputChunk sz hist c) (pre ++ [c]) h2
    simpa [List.append_assoc] using h3

/-- Claim C6: across any sequence of appended chunks (totaling more than the
10 MiB ceiling), after each append the retained total is at most 10 MiB, and
the retained history is a suffix of the chunks appended so far — whole chunks
are evicted from the oldest end only and the survivors keep their order. -/
theorem history_append_bound (sz : α → Nat) (cs : List α)
    (htotal : totalHistorySize sz cs > MAX_HISTORY_SIZE) :
    ∀ p, p <+: cs →
      totalHistorySize sz (appendAll sz p) ≤ MAX_HISTORY_SIZE ∧
      appendAll sz p <:+ p := by
  intro p _
  constructor
  · induction p using List.reverseRecOn with
    | nil => simp [appendAll, totalHistorySize]
    | append_singleton q c _ =>
      unfold appendAll
      rw [List.foldl_append]
      simp only [List.foldl_cons, List.foldl_nil]
      exact pushOutputChunk_sum_le sz _ c
  · simpa [appendAll] using foldl_push_suffix sz p [] [] (List.suffix_refl [])

/-- Witness for C6 at a concrete over-limit chunk sequence. -/
theorem history_append_bound_witness :
    totalHistorySize (fun n : Nat => n) [10 * 1024 * 1024 + 1] > MAX_HISTORY_SIZE ∧
    totalHistorySize (fun n : Nat => n)
        (appendAll (fun n : Nat => n) [10 * 1024 * 1024 + 1]) ≤ MAX_HISTORY_SIZE ∧
    appendAll (fun n : Nat => n) [10 * 1024 * 1024 + 1] <:+ [10 * 1024 * 1024 + 1] := by
  refine ⟨by decide, ?_, ?_⟩
  · exact (history_append_bound (fun n : Nat => n) [10 * 1024 * 1024 + 1] (by decide)
      [10 * 1024 * 1024 + 1] (List.prefix_refl _)).1
  · exact (history_append_bound (fun n : Nat => n) [10 * 1024 * 1024 + 1] (by decide)
      [10 * 1024 * 1024 + 1] (List.prefix_refl _)).2

theorem evictOldest_oversized (sz : α → Nat) (c : α) (hc : sz c > MAX_HISTORY_SIZE) :
    ∀ (l : List α) (t : Nat), t = ((l ++ [c]).map sz).sum →
      evictOldest sz t (l ++ [c]) = [] := by
  intro l
  induction l with
  | nil =>
    intro t ht
    simp only [List.nil_append, List.map_cons, List.map_nil, List.sum_cons,
      List.sum_nil] at ht
    simp only [List.nil_append, evictOldest]
    rw [if_pos (by omega)]
  | cons h rest ih =>
    intro t ht
    simp only [List.cons_append, List.map_cons, List.sum_cons, List.map_append,
      List.sum_append, List.map_nil, List.sum_nil] at ht
    simp only [List.cons_append, evictOldest]
    rw [if_pos (by omega)]
    apply ih
    simp only [List.map_append, List.sum_append, List.map_cons, List.sum_cons,
      List.map_nil, List.sum_nil]
    omega

/-- Claim C1 counterexample: after appending a single chunk larger than the
10 MiB ceiling to an empty history, the buffer does NOT hold that newest
chunk — the eviction loop removes it too, leaving the history empty. -/
theorem oversized_chunk_not_retained_cex :
    pushOutputChunk (fun n : Nat => n) [] (10 * 1024 * 1024 + 1) = [] ∧
    pushOutputChunk (fun n : Nat => n) [] (10 * 1024 * 1024 + 1) ≠
      [10 * 1024 * 1024 + 1] := by
  constructor
  · decide
  · decide

/-- Claim C1 (amended): if a single appended chunk is by itself larger than
the 10 MiB ceiling, the eviction loop evicts every chunk including the newest
one, so after the append the session's outputHistory is empty. -/
theorem oversized_chunk_clears_history (sz : α → Nat) (hist : List α) (c : α)
    (hc : sz c > MAX_HISTORY_SIZE) : pushOutputChunk sz hist c = [] := by
  show evictOldest sz (totalHistorySize sz (hist ++ [c])) (hist ++ [c]) = []
  rw [totalHistorySize_eq_sum]
  exact evictOldest_oversized sz c hc hist _ rfl

/-- Witness for the amended C1 at a concrete oversized chunk. -/
theorem oversized_chunk_clears_history_witness :
    pushOutputChunk (fun n : Nat => n) [5, 7] (10 * 1024 * 1024 + 1) = [] :=
  oversized_chunk_clears_history (fun n : Nat => n) [5, 7] (10 * 1024 * 1024 + 1)
    (by decide)

/-! ## Lemmas on the classifier window collection -/

theorem collectGo_acc_nonempty (ls : List Str) :
    ∀ acc : List Str, acc ≠ [] → acc.length ≤ 30 →
      collectGo ls acc = (ls.take (30 - acc.length)).reverse ++ acc := by
  induction ls with
  | nil => intro acc _ _; simp [collectGo]
  | cons l rest ih =>
    intro acc hne hle
    by_cases h30 : acc.length < 30
    · have hcond : 0 < acc.length ∨ trimChars l ≠ [] :=
        Or.inl (List.length_pos.mpr hne)
      simp only [collectGo]
      rw [if_pos h30, if_pos hcond]
      rw [ih (l :: acc) (by simp) (by simp only [List.length_cons]; omega)]
      have h1 : 30 - acc.length = (30 - (acc.length + 1)) + 1 := by omega
      rw [h1, List.take_succ_cons, List.reverse_cons, List.append_assoc]
      simp
    · have h30' : acc.length = 30 := by omega
      simp only [collectGo]
      rw [if_neg h30]
      simp [h30']

theorem collectGo_nil_acc (ls : List Str) :
    collectGo ls [] =
      ((ls.dropWhile fun l => (trimChars l).isEmpty).take 30).reverse := by
  induction ls with
  | nil => simp [collectGo]
  | cons l rest ih =>
    simp only [collectGo, List.length_nil]
    rw [if_pos (by omega)]
    by_cases hb : trimChars l = []
    · rw [if_neg (by simp [hb])]
      rw [ih, List.dropWhile_cons, if_pos (by simp [hb])]
    · rw [if_pos (Or.inr hb)]
      rw [collectGo_acc_nonempty rest [l] (by simp) (by simp)]
      rw [List.dropWhile_cons, if_neg (by simp [hb])]
      have h30 : (30 : Nat) = 29 + 1 := by omega
      rw [h30, List.take_succ_cons, List.reverse_cons]
      simp

/-- Claim C8: the classifier window skips blank (whitespace-only) lines at
the very bottom of the buffer, retains blank lines above the first non-blank
line, and collects at most 30 lines: it equals the last at-most-30 lines of
the buffer after discarding the trailing all-blank region. -/
theorem collect_window_spec (buffer : List Str) :
    collectLines buffer =
      (((buffer.reverse).dropWhile fun l => (trimChars l).isEmpty).take 30).reverse ∧
    (collectLines buffer).length ≤ 30 := by
  constructor
  · exact collectGo_nil_acc buffer.reverse
  · rw [collectLines, collectGo_nil_acc]
    simp only [List.length_reverse, List.length_take]
    exact min_le_left _ _

/-- Claim C2: the terminal state classifier applied to the collected window
returns WaitingInput when the text contains a boxed-prompt marker (a vertical
bar followed by "Do you want" or "Would you like"), taking precedence over
every other check; otherwise Busy when the lower-cased text contains
"esc to interrupt"; otherwise Idle. -/
theorem classifier_priority (buffer : List Str) :
    (boxedPromptMarker (windowContent buffer) = true →
      detectTerminalState buffer = SessionState.waiting_input) ∧
    (boxedPromptMarker (windowContent buffer) = false →
      escInterruptBanner (windowContent buffer) = true →
      detectTerminalState buffer = SessionState.busy) ∧
    (boxedPromptMarker (windowContent buffer) = false →
      escInterruptBanner (windowContent buffer) = false →
      detectTerminalState buffer = SessionState.idle) := by
  refine ⟨fun h1 => ?_, fun h1 h2 => ?_, fun h1 h2 => ?_⟩
  · unfold boxedPromptMarker windowContent at h1
    unfold detectTerminalState classifyContent
    rw [if_pos h1]
  · unfold boxedPromptMarker windowContent at h1
    unfold escInterruptBanner windowContent at h2
    unfold detectTerminalState classifyContent
    rw [if_neg (by rw [h1]; simp), if_pos h2]
  · unfold boxedPromptMarker windowContent at h1
    unfold escInterruptBanner windowContent at h2
    unfold detectTerminalState classifyContent
    rw [if_neg (by rw [h1]; simp), if_neg (by rw [h2]; simp)]

/-- Witness for C2: a window containing both a boxed prompt and an
"esc to interrupt" banner classifies WaitingInput (the prompt wins). -/
theorem classifier_priority_witness :
    boxedPromptMarker (windowContent demoPromptBuffer) = true ∧
    escInterruptBanner (windowContent demoPromptBuffer) = true ∧
    detectTerminalState demoPromptBuffer = SessionState.waiting_input :=
  ⟨by decide, by decide, (classifier_priority demoPromptBuffer).1 (by decide)⟩

/-! ## Lemmas on the session map -/

theorem find?_append_of_none {p : α → Bool} {m : List α} (h : m.find? p = none)
    (l : List α) : (m ++ l).find? p = l.find? p := by
  induction m with
  | nil => simp
  | cons a m ih =>
    rcases hpa : p a with _ | _
    · rw [List.cons_append, List.find?_cons_of_neg _ (by simp [hpa])]
      apply ih
      rwa [List.find?_cons_of_neg _ (by simp [hpa])] at h
    · rw [List.find?_cons_of_pos _ hpa] at h
      exact absurd h (by simp)

theorem mapGet_find?_none {m : List (Str × Session)} {k : Str}
    (h : mapGet m k = none) : m.find? (fun e => e.1 == k) = none := by
  rcases hf : m.find? (fun e => e.1 == k) with _ | e
  · exact hf
  · exact absurd h (by simp [mapGet, hf])

theorem mapGet_mapSet_of_none {m : List (Str × Session)} {k : Str} {v : Session}
    (h : mapGet m k = none) : mapGet (mapSet m k v) k = some v := by
  have hf := mapGet_find?_none h
  have hany : m.any (fun e => e.1 == k) = false := by
    rw [List.any_eq_false]
    exact List.find?_eq_none.mp hf
  unfold mapGet mapSet
  rw [hany]
  simp only [Bool.false_eq_true, if_false]
  rw [find?_append_of_none hf]
  simp [List.find?]

theorem mapGet_mapDelete_self (m : List (Str × Session)) (k : Str) :
    mapGet (mapDelete m k) k = none := by
  unfold mapGet mapDelete
  have h : (m.filter fun e => !(e.1 == k)).find? (fun e => e.1 == k) = none := by
    rw [List.find?_eq_none]
    intro x hx
    rw [List.mem_filter] at hx
    simpa using hx.2
  rw [h]

theorem mem_mapSet {m : List (Str × Session)} {k : Str} {v : Session}
    {e : Str × Session} (h : e ∈ mapSet m k v) : e = (k, v) ∨ e ∈ m := by
  unfold mapSet at h
  split at h
  · obtain ⟨a, ha, hfa⟩ := List.mem_map.mp h
    by_cases hk : (a.1 == k) = true
    · rw [if_pos hk] at hfa
      left; exact hfa.symm
    · rw [if_neg hk] at hfa
      right; rw [← hfa]; exact ha
  · rcases List.mem_append.mp h with h1 | h2
    · right; exact h1
    · left; simpa using h2

/-! ## Claims on the session store -/

/-- Claim C7: `createSession` is idempotent on the worktree key — a second
call with the same key returns the very session object of the first call and
leaves the whole manager state (spawned-process log included) unchanged,
whatever agent kind and hosting mode the second call requests. -/
theorem createSession_idempotent (st : MState) (p : Str) (c1 c2 : CommandType)
    (z1 z2 : Bool) (t1 t2 : Nat) :
    (createSession (createSession st p c1 z1 t1).2 p c2 z2 t2).1 =
      (createSession st p c1 z1 t1).1 ∧
    (createSession (createSession st p c1 z1 t1).2 p c2 z2 t2).2 =
      (createSession st p c1 z1 t1).2 ∧
    (createSession (createSession st p c1 z1 t1).2 p c2 z2 t2).2.spawned =
      (createSession st p c1 z1 t1).2.spawned := by
  rcases hm : mapGet st.sessions p with _ | s
  · set r := createSession st p c1 z1 t1 with hr
    have h2 : mapGet r.2.sessions p = some r.1 := by
      rw [hr]
      simp only [createSession, hm]
      exact mapGet_mapSet_of_none hm
    simp only [createSession, h2]
    exact ⟨trivial, trivial, trivial⟩
  · have h1 : createSession st p c1 z1 t1 = (s, st) := by
      simp only [createSession, hm]
    rw [h1]
    simp only [createSession, hm]
    exact ⟨trivial, trivial, trivial⟩

/-- Claim C9: `destroySession` on a worktree key with no stored session
leaves the manager state completely unchanged (no kill, no timer clearing,
no event), and destroying twice equals destroying once. -/
theorem destroySession_absent_noop (st : MState) (p : Str) :
    (mapGet st.sessions p = none → destroySession st p = st) ∧
    destroySession (destroySession st p) p = destroySession st p := by
  have habsent : ∀ st' : MState, mapGet st'.sessions p = none →
      destroySession st' p = st' := by
    intro st' h
    simp only [destroySession, h]
  constructor
  · exact habsent st
  · rcases hm : mapGet st.sessions p with _ | s
    · have h1 := habsent st hm
      simp only [h1]
    · apply habsent
      simp only [destroySession, hm]
      exact mapGet_mapDelete_self _ _
/-- Witness for C9 at a concrete state with no session stored. -/
theorem destroySession_absent_noop_witness :
    destroySession emptyMState ("/w".toList) = emptyMState :=
  (destroySession_absent_noop emptyMState ("/w".toList)).1 rfl

/-- Claim C10: Zellij-managed sessions are never WaitingInput — the invariant
that every tracked Zellij session is Idle or Busy is preserved by session
creation and by every Zellij status-monitoring assignment, and a freshly
created Zellij session starts Idle. -/
theorem zellij_sessions_never_waiting (st : MState) (hOK : ZellijOK st) :
    (∀ p c z t, ZellijOK (createSession st p c z t).2) ∧
    (∀ p a pe t, ZellijOK (zellijTick st p a pe t)) ∧
    (∀ p c t, mapGet st.sessions p = none →
      (createSession st p c true t).1.state = SessionState.idle ∧
      (createSession st p c true t).1.isZellijSession = true) := by
  refine ⟨?_, ?_, ?_⟩
  · intro p c z t e he hz
    rcases hm : mapGet st.sessions p with _ | s
    · simp only [createSession, hm] at he
      rcases mem_mapSet he with h1 | h2
      · subst h1
        simp only at hz
        simp only [hz] at *
        simp
      · exact hOK e h2 hz
    · simp only [createSession, hm] at he
      exact hOK e he hz
  · intro p a pe t e he hz
    rcases hm : mapGet st.sessions p with _ | s
    · simp only [zellijTick, hm] at he
      exact hOK e he hz
    · simp only [zellijTick, hm] at he
      by_cases hzs : s.isZellijSession = true
      · rw [if_pos hzs] at he
        by_cases hne : s.state ≠ zellijNewState a pe
        · rw [if_pos hne] at he
          rcases mem_mapSet he with h1 | h2
          · subst h1
            rcases a with _ | _ <;> rcases pe with _ | _ <;> simp [zellijNewState]
          · exact hOK e h2 hz
        · rw [if_neg hne] at he
          exact hOK e he hz
      · rw [if_neg hzs] at he
        exact hOK e he hz
  · intro p c t hm
    simp [createSession, hm]

/-- Witness for C10 at concrete states. -/
theorem zellij_sessions_never_waiting_witness :
    (createSession emptyMState ("/w".toList) CommandType.claude true 0).1.state =
      SessionState.idle ∧
    ZellijOK (zellijTick emptyMState ("/w".toList) true false 0) := by
  have hOK : ZellijOK emptyMState := by
    intro e he
    simp [emptyMState] at he
  exact ⟨((zellij_sessions_never_waiting emptyMState hOK).2.2 ("/w".toList)
      CommandType.claude 0 rfl).1,
    (zellij_sessions_never_waiting emptyMState hOK).2.1 ("/w".toList) true false 0⟩

/-! ## Lemmas on the layout parser and pane operations -/

theorem parsePanesGo_agentPanes (resolveFn : Str → Str → Str) (lines : List Str) :
    ∀ (cwd : Str) (k : Int) (acc : List PaneInfo),
      (parsePanesGo resolveFn lines cwd k acc).map paneProj =
        acc.map paneProj ++ agentPanesSpec k (commandPaneScan resolveFn lines cwd) := by
  induction lines with
  | nil => intro cwd k acc; simp [parsePanesGo, commandPaneScan, agentPanesSpec]
  | cons l rest ih =>
    intro cwd k acc
    simp only [parsePanesGo, commandPaneScan]
    by_cases hb : trimChars l = []
    · rw [if_pos hb, if_pos hb, ih]
    · rw [if_neg hb, if_neg hb]
      rcases hstep : lineStep resolveFn cwd (trimChars l) with ⟨cwd1, entry⟩
      rcases entry with _ | ⟨command, pcwd⟩
      · simp only [hstep]
        rw [ih]
      · simp only [hstep]
        rw [ih]
        simp only [agentPanesSpec]
        rcases hct : paneCommandType command with _ | ct
        · simp only [hct]
        · simp only [hct]
          by_cases hcw : pcwd = []
          · rw [if_neg (by simp [hcw]), if_neg (by simp [hcw])]
          · rw [if_pos hcw, if_pos hcw]
            simp [paneProj, List.map_append]

/-- Claim C4: in the parsed layout dump, the focus index counter advances
once per command-bearing pane line (agent or not), while the returned list
keeps only the claude/codex panes, each carrying its index in the full
command-bearing ordering. -/
theorem getExistingPanes_focus_ordering (resolveFn : Str → Str → Str) (stdout : Str) :
    (getExistingPanes resolveFn stdout).map paneProj =
      agentPanesSpec 0 (commandPaneScan resolveFn (splitOnChar '\n' stdout) []) := by
  unfold getExistingPanes
  rw [parsePanesGo_agentPanes]
  simp

/-- Claim C5: `focusPane` issues exactly `target - current` focus-next
actions when that difference is positive, exactly its absolute value
focus-previous actions when negative, and no action (with success) when the
indices are equal. -/
theorem focusPane_navigation_steps (resolveFn1 : Str → Str) (panes : List PaneInfo)
    (cf : Str × Int) (targetCwd : Str) (tp : PaneInfo)
    (hfind : panes.find? (fun pane => resolveFn1 pane.cwd == resolveFn1 targetCwd) =
      some tp) :
    (focusPane true resolveFn1 panes (some cf) targetCwd).1.success = true ∧
    (tp.focusIndex - cf.2 > 0 →
      (focusPane true resolveFn1 panes (some cf) targetCwd).2 =
        List.replicate (tp.focusIndex - cf.2).toNat NavAction.focusNext) ∧
    (tp.focusIndex - cf.2 < 0 →
      (focusPane true resolveFn1 panes (some cf) targetCwd).2 =
        List.replicate (tp.focusIndex - cf.2).natAbs NavAction.focusPrev) ∧
    (tp.focusIndex = cf.2 →
      (focusPane true resolveFn1 panes (some cf) targetCwd).2 = []) := by
  have hbase : focusPane true resolveFn1 panes (some cf) targetCwd =
      (if tp.focusIndex - cf.2 > 0 then
        ({ success := true, error := none },
          List.replicate (tp.focusIndex - cf.2).toNat NavAction.focusNext)
      else if tp.focusIndex - cf.2 < 0 then
        ({ success := true, error := none },
          List.replicate (tp.focusIndex - cf.2).natAbs NavAction.focusPrev)
      else ({ success := true, error := none }, [])) := by
    simp only [focusPane, hfind, Bool.not_true, Bool.false_eq_true, if_false]
  rw [hbase]
  refine ⟨?_, fun h => ?_, fun h => ?_, fun h => ?_⟩
  · rcases lt_trichotomy (tp.focusIndex - cf.2) 0 with hlt | heq | hgt
    · rw [if_neg (by omega), if_pos hlt]
    · rw [if_neg (by omega), if_neg (by omega)]
    · rw [if_pos hgt]
  · rw [if_pos h]
  · rw [if_neg (by omega), if_pos h]
  · rw [if_neg (by omega), if_neg (by omega)]

/-- Witness for C5: current focus index 2, target focus index 5 — exactly 3
forward navigation actions and success. -/
theorem focusPane_navigation_steps_witness :
    (focusPane true (fun s => s) demoPanes (some ("/cur".toList, 2))
        ("/w".toList)).1.success = true ∧
    (focusPane true (fun s => s) demoPanes (some ("/cur".toList, 2))
        ("/w".toList)).2 = List.replicate 3 NavAction.focusNext := by
  have h := focusPane_navigation_steps (fun s => s) demoPanes ("/cur".toList, 2)
    ("/w".toList) demoPane (by decide)
  exact ⟨h.1, (h.2.1 (by decide)).trans (by decide)⟩

/-- Claim C3 counterexample: with zellij available, inside a session, and the
agent command absent from PATH, the one-shot strategy `createWorktreePane`
still issues its multiplexer CLI command and reports success — it performs no
PATH check on the agent command. -/
theorem createWorktreePane_skips_path_check_cex :
    (createWorktreePane envNoAgent ("/repo/wt".toList) ("feat".toList)
        CommandType.claude).1.success = true ∧
    (createWorktreePane envNoAgent ("/repo/wt".toList) ("feat".toList)
        CommandType.claude).2 ≠ [] ∧
    envNoAgent.inPath (commandOf CommandType.claude) = false := by
  refine ⟨?_, ?_, ?_⟩ <;> decide

/-- Claim C3 (amended): only the scripted strategy `createWorktreeTab`
verifies the agent command in PATH before issuing any multiplexer CLI command
and fails with a descriptive error when absent; the one-shot strategy
`createWorktreePane` performs no such check and issues its pane-creation
command regardless. -/
theorem pane_creation_path_check (env : ZEnv) (resolveFn1 : Str → Str)
    (worktreePath branchName : Str) (ct : CommandType)
    (hz : env.zellijInPath = true) (hin : env.insideZellij = true)
    (hcmd : env.inPath (commandOf ct) = false) :
    (createWorktreeTab env resolveFn1 worktreePath branchName ct).1.success = false ∧
    (createWorktreeTab env resolveFn1 worktreePath branchName ct).1.error =
      some ("Command \x27".toList ++ commandOf ct ++ "\x27 not found in PATH".toList) ∧
    (createWorktreeTab env resolveFn1 worktreePath branchName ct).2 = [] ∧
    (createWorktreePane env worktreePath branchName ct).1.success = true ∧
    (createWorktreePane env worktreePath branchName ct).2.length = 1 := by
  refine ⟨?_, ?_, ?_, ?_, ?_⟩ <;>
    simp [createWorktreeTab, createWorktreePane, hz, hin, hcmd]

/-- Witness for the amended C3 at a concrete environment. -/
theorem pane_creation_path_check_witness :
    (createWorktreeTab envNoAgent (fun s => s) ("/repo/wt".toList) ("feat".toList)
        CommandType.claude).1.success = false ∧
    (createWorktreeTab envNoAgent (fun s => s) ("/repo/wt".toList) ("feat".toList)
        CommandType.claude).1.error =
      some ("Command \x27".toList ++ commandOf CommandType.claude ++
        "\x27 not found in PATH".toList) ∧
    (createWorktreeTab envNoAgent (fun s => s) ("/repo/wt".toList) ("feat".toList)
        CommandType.claude).2 = [] ∧
    (createWorktreePane envNoAgent ("/repo/wt".toList) ("feat".toList)
        CommandType.claude).1.success = true ∧
    (createWorktreePane envNoAgent ("/repo/wt".toList) ("feat".toList)
        CommandType.claude).2.length = 1 :=
  pane_creation_path_check envNoAgent (fun s => s) ("/repo/wt".toList)
    ("feat".toList) CommandType.claude rfl rfl rfl
